import Mathlib

/-!
Verification of the two diagnostic scripts in `SayanhoWeb/Sayanho.Backend`:
`inspect_db.py` (database inspector) and `read_excel.py` (spreadsheet
previewer).  SQLite tables are embedded as lists of association-list rows;
the scripts' console output, issued queries, resource usage and exit status
are embedded as explicit traces.
-/

namespace Sayanho

/-- A SQL value is modelled as a string; a cell is `Option Value`, where
`none` is SQL NULL (also the result of reading a column absent from a row). -/
abbrev Value := String

/-- A row: association list from column name to cell value. -/
abbrev Row := List (String × Option Value)

/-- Reading a field from a row (`row['c']` / a column reference in SQL):
first binding wins; a missing key reads as NULL. -/
def Row.get : Row → String → Option Value
  | [], _ => none
  | (k, v) :: rest, c => if k = c then v else Row.get rest c

/-- A table of the SQLite database: declared name, declared column list
(as returned by `PRAGMA table_info`), and rows. -/
structure Table where
  name : String
  columns : List String
  rows : List Row
deriving DecidableEq

/-- Resolving a table name in the database (the list of tables). -/
def findTable : List Table → String → Option Table
  | [], _ => none
  | t :: ts, n => if t.name = n then some t else findTable ts n

/-- The rows of a row list satisfying `Item = item` (the `WHERE Item = ?`
filter), in table order. -/
def rowsMatching (item : String) : List Row → List Row
  | [] => []
  | r :: rs =>
      if Row.get r "Item" = some item then r :: rowsMatching item rs
      else rowsMatching item rs

/-- The non-NULL values of column `col` over a row list
(the `"col" IS NOT NULL` projection), in row order. -/
def colVals (col : String) : List Row → List Value
  | [] => []
  | r :: rs =>
      match Row.get r col with
      | some v => v :: colVals col rs
      | none => colVals col rs

/-- Remove every occurrence of a value from a list. -/
def removeVal (v : Value) : List Value → List Value
  | [] => []
  | w :: ws => if w = v then removeVal v ws else w :: removeVal v ws

theorem removeVal_length_le (v : Value) (l : List Value) :
    (removeVal v l).length ≤ l.length := by
  induction l with
  | nil => simp [removeVal]
  | cons w ws ih =>
      simp only [removeVal]
      split
      · exact Nat.le_succ_of_le ih
      · simpa using ih

/-- `SELECT DISTINCT` semantics: keep the first occurrence of each value. -/
def dedupFirst : List Value → List Value
  | [] => []
  | v :: vs => v :: dedupFirst (removeVal v vs)
termination_by l => l.length
decreasing_by
  simp only [List.length_cons]
  exact Nat.lt_succ_of_le (removeVal_length_le _ _)

/-- The result list of
`SELECT DISTINCT "col" FROM t WHERE Item = ? AND "col" IS NOT NULL LIMIT 10`
(inspect_db.py line 44). -/
def distinctVals (t : Table) (item col : String) : List Value :=
  (dedupFirst (colVals col (rowsMatching item t.rows))).take 10

/-- The result list of `SELECT * FROM t WHERE Item = ? LIMIT 5`
(inspect_db.py line 34). -/
def sampleRows (t : Table) (item : String) : List Row :=
  (rowsMatching item t.rows).take 5

/-- The hardcoded allow-list of interesting columns (inspect_db.py line 42). -/
def interesting : List String :=
  ["Type", "Pole", "Current Rating", "Company", "Enclosure", "Breaking Capacity"]

/-- `[col for col in allow if col in cols]`, keeping allow-list order
(the `if col in columns` guard of inspect_db.py line 43). -/
def filterPresent (allow cols : List String) : List String :=
  match allow with
  | [] => []
  | c :: cs =>
      if c ∈ cols then c :: filterPresent cs cols else filterPresent cs cols

/-- `SELECT Sheet FROM "Index" WHERE Item = ?` followed by `fetchone()`
(inspect_db.py lines 19-20): the first matching row, if any. -/
def resolveSheet (idx : Table) (item : String) : Option Row :=
  (rowsMatching item idx.rows).head?

/-- Python's rendering of the fetched `Sheet` cell when interpolated into
later query text (`str(None) = "None"`). -/
def sheetNameStr : Option Value → String
  | some v => v
  | none => "None"

/-- Console output events of `inspect_db.py`, one per `print` call. -/
inductive Event where
  | header (item : String)
  | notFound (item : String)
  | sheet (cell : Option Value)
  | columns (cols : List String)
  | sampleHeader
  | sampleRow (r : Row)
  | distinctHeader
  | distinct (col : String) (vals : List Value)
  | errorMsg (msg : String)
  | dbNotFound
deriving DecidableEq

/-- SQL statements issued against the connection. -/
inductive Query where
  | resolve (item : String)
  | pragma (sheet : String)
  | sample (sheet item : String)
  | distinctQ (sheet col item : String)
deriving DecidableEq

/-- Exceptions that `sqlite3` can raise for the statements of this script. -/
inductive Err where
  | noSuchTable (name : String)
  | noSuchColumn (name : String)
deriving DecidableEq

/-- The message printed by the outer `except Exception as e` handler
(`print(f"Error: \x7be\x7d")`). -/
def errMsg : Err → String
  | .noSuchTable n => "Error: no such table: " ++ n
  | .noSuchColumn n => "Error: no such column: " ++ n

/-- What one call records: output printed, queries attempted, and the
exception it raised, if any. -/
structure Trace where
  events : List Event
  queries : List Query
  err : Option Err
deriving DecidableEq

/-- `print_table_info(item_name)` (inspect_db.py lines 16-46).  Resolves the
sheet for the item via the `Index` table, prints the resolved table's
columns, up to 5 sample rows, and up to 10 distinct values per interesting
column present; a missing item prints a not-found message and returns
early; a missing table or referenced column raises. -/
def printTableInfo (db : List Table) (item : String) : Trace :=
  match findTable db "Index" with
  | none => ⟨[.header item], [.resolve item], some (.noSuchTable "Index")⟩
  | some idx =>
      if "Item" ∈ idx.columns ∧ "Sheet" ∈ idx.columns then
        match resolveSheet idx item with
        | none => ⟨[.header item, .notFound item], [.resolve item], none⟩
        | some row =>
            match findTable db (sheetNameStr (Row.get row "Sheet")) with
            | none =>
                ⟨[.header item, .sheet (Row.get row "Sheet"), .columns [],
                    .sampleHeader],
                  [.resolve item, .pragma (sheetNameStr (Row.get row "Sheet")),
                    .sample (sheetNameStr (Row.get row "Sheet")) item],
                  some (.noSuchTable (sheetNameStr (Row.get row "Sheet")))⟩
            | some t =>
                if "Item" ∈ t.columns then
                  ⟨[.header item, .sheet (Row.get row "Sheet"),
                      .columns t.columns, .sampleHeader]
                      ++ (sampleRows t item).map Event.sampleRow
                      ++ [.distinctHeader]
                      ++ (filterPresent interesting t.columns).map
                          (fun c => Event.distinct c (distinctVals t item c)),
                    [.resolve item,
                      .pragma (sheetNameStr (Row.get row "Sheet")),
                      .sample (sheetNameStr (Row.get row "Sheet")) item]
                      ++ (filterPresent interesting t.columns).map
                          (fun c =>
                            Query.distinctQ (sheetNameStr (Row.get row "Sheet"))
                              c item),
                    none⟩
                else
                  ⟨[.header item, .sheet (Row.get row "Sheet"),
                      .columns t.columns, .sampleHeader],
                    [.resolve item,
                      .pragma (sheetNameStr (Row.get row "Sheet")),
                      .sample (sheetNameStr (Row.get row "Sheet")) item],
                    some (.noSuchColumn "Item")⟩
      else
        ⟨[.header item], [.resolve item],
          some (.noSuchColumn
            (if "Item" ∈ idx.columns then "Sheet" else "Item"))⟩

/-- The four hardcoded item names (inspect_db.py lines 49-52). -/
def items : List String := ["Main Switch Open", "MCCB", "MCB", "ACB"]

/-- The body of the `try` block: the calls run in sequence; the first
exception aborts the remaining calls (single outer catch). -/
def runItems (db : List Table) : List String → Trace
  | [] => ⟨[], [], none⟩
  | i :: rest =>
      match printTableInfo db i with
      | ⟨evs, qs, some e⟩ => ⟨evs, qs, some e⟩
      | ⟨evs, qs, none⟩ =>
          ⟨evs ++ (runItems db rest).events, qs ++ (runItems db rest).queries,
            (runItems db rest).err⟩

/-- Observable outcome of a whole run of `inspect_db.py`. -/
structure RunResult where
  events : List Event
  queries : List Query
  openCount : Nat
  closeCount : Nat
  exitCode : Nat
deriving DecidableEq

/-- The whole script `inspect_db.py`: existence check with `exit(1)`,
connection open, `try`/`except`/`finally` around the four inspections,
`conn.close()` in the `finally`. -/
def inspectMain (dbFileExists : Bool) (db : List Table) : RunResult :=
  if dbFileExists then
    match (runItems db items).err with
    | none =>
        ⟨(runItems db items).events, (runItems db items).queries, 1, 1, 0⟩
    | some e =>
        ⟨(runItems db items).events ++ [.errorMsg (errMsg e)],
          (runItems db items).queries, 1, 1, 0⟩
  else ⟨[.dbNotFound], [], 0, 0, 1⟩

/-- One worksheet of the spreadsheet: name and data rows. -/
structure XSheet where
  name : String
  rows : List Row
deriving DecidableEq

/-- The spreadsheet file contents. -/
structure Workbook where
  sheets : List XSheet
deriving DecidableEq

/-- Console output events of `read_excel.py`. -/
inductive XEvent where
  | sheetNames (names : List String)
  | sheetHeader (name : String)
  | preview (name : String) (rows : List Row)
  | errorMsg (msg : String)
deriving DecidableEq

/-- Observable outcome of a run of `read_excel.py`. -/
structure XRun where
  events : List XEvent
  exitCode : Nat
deriving DecidableEq

/-- The whole script `read_excel.py`: opening the workbook either succeeds
with contents or fails with an error text; on success the sheet names and a
5-row preview of each sheet are printed; on failure the single catch-all
prints one message embedding the failure text; the exit status is 0 in
both cases. -/
def readExcelMain : Except String Workbook → XRun
  | .error s => ⟨[.errorMsg ("Error reading Excel file: " ++ s)], 0⟩
  | .ok wb =>
      ⟨.sheetNames (wb.sheets.map XSheet.name)
          :: (wb.sheets.map
              (fun sh => [XEvent.sheetHeader sh.name,
                          XEvent.preview sh.name (sh.rows.take 5)])).flatten,
        0⟩

/-- Example `Index` table: maps item "MCB" to sheet "Circuit Breakers". -/
def idxEx : Table :=
  ⟨"Index", ["Item", "Sheet"],
    [[("Item", some "MCB"), ("Sheet", some "Circuit Breakers")]]⟩

/-- Example resolved table with four rows for item "MCB". -/
def cbEx : Table :=
  ⟨"Circuit Breakers", ["Item", "Type", "Pole", "Current Rating"],
    [[("Item", some "MCB"), ("Type", some "B"), ("Pole", some "1"),
        ("Current Rating", some "6A")],
      [("Item", some "MCB"), ("Type", some "B"), ("Pole", some "2"),
        ("Current Rating", some "10A")],
      [("Item", some "MCB"), ("Type", some "C"), ("Pole", some "3"),
        ("Current Rating", some "16A")],
      [("Item", some "MCB"), ("Type", some "C"), ("Pole", some "3"),
        ("Current Rating", some "20A")]]⟩

/-- Example database holding the two tables above. -/
def dbEx : List Table := [idxEx, cbEx]

theorem mem_rowsMatching {r : Row} {item : String} {l : List Row} :
    r ∈ rowsMatching item l ↔ r ∈ l ∧ Row.get r "Item" = some item := by
  induction l with
  | nil => simp [rowsMatching]
  | cons x xs ih =>
      simp only [rowsMatching]
      split
      · next hx =>
          simp only [List.mem_cons, ih]
          constructor
          · rintro (rfl | ⟨h1, h2⟩)
            · exact ⟨Or.inl rfl, hx⟩
            · exact ⟨Or.inr h1, h2⟩
          · rintro ⟨rfl | h1, h2⟩
            · exact Or.inl rfl
            · exact Or.inr ⟨h1, h2⟩
      · next hx =>
          rw [ih]
          simp only [List.mem_cons]
          constructor
          · rintro ⟨h1, h2⟩
            exact ⟨Or.inr h1, h2⟩
          · rintro ⟨rfl | h1, h2⟩
            · exact absurd h2 hx
            · exact ⟨h1, h2⟩

theorem rowsMatching_eq_nil {item : String} {l : List Row}
    (h : ∀ r ∈ l, ¬Row.get r "Item" = some item) :
    rowsMatching item l = [] := by
  induction l with
  | nil => rfl
  | cons x xs ih =>
      simp only [rowsMatching]
      split
      · next hx => exact absurd hx (h x (List.mem_cons_self x xs))
      · exact ih fun r hr => h r (List.mem_cons_of_mem x hr)

theorem mem_colVals {v : Value} {col : String} {l : List Row}
    (h : v ∈ colVals col l) : ∃ r ∈ l, Row.get r col = some v := by
  induction l with
  | nil => simp [colVals] at h
  | cons x xs ih =>
      cases hx : Row.get x col with
      | none =>
          simp only [colVals, hx] at h
          obtain ⟨r, hr, hv⟩ := ih h
          exact ⟨r, List.mem_cons_of_mem x hr, hv⟩
      | some w =>
          simp only [colVals, hx, List.mem_cons] at h
          rcases h with rfl | h
          · exact ⟨x, List.mem_cons_self x xs, hx⟩
          · obtain ⟨r, hr, hv⟩ := ih h
            exact ⟨r, List.mem_cons_of_mem x hr, hv⟩

theorem mem_removeVal {x v : Value} {l : List Value} :
    x ∈ removeVal v l ↔ x ∈ l ∧ x ≠ v := by
  induction l with
  | nil => simp [removeVal]
  | cons w ws ih =>
      simp only [removeVal]
      split
      · next hw =>
          subst hw
          rw [ih]
          simp only [List.mem_cons]
          constructor
          · rintro ⟨h1, h2⟩
            exact ⟨Or.inr h1, h2⟩
          · rintro ⟨rfl | h1, h2⟩
            · exact absurd rfl h2
            · exact ⟨h1, h2⟩
      · next hw =>
          simp only [List.mem_cons, ih]
          constructor
          · rintro (rfl | ⟨h1, h2⟩)
            · exact ⟨Or.inl rfl, hw⟩
            · exact ⟨Or.inr h1, h2⟩
          · rintro ⟨rfl | h1, h2⟩
            · exact Or.inl rfl
            · exact Or.inr ⟨h1, h2⟩

theorem mem_dedupFirst {x : Value} {l : List Value}
    (h : x ∈ dedupFirst l) : x ∈ l := by
  induction l using dedupFirst.induct with
  | case1 => simp [dedupFirst] at h
  | case2 v vs ih =>
      simp only [dedupFirst, List.mem_cons] at h
      rcases h with rfl | h
      · exact List.mem_cons_self x vs
      · exact List.mem_cons_of_mem v (mem_removeVal.mp (ih h)).1

theorem dedupFirst_nodup (l : List Value) : (dedupFirst l).Nodup := by
  induction l using dedupFirst.induct with
  | case1 => simp [dedupFirst]
  | case2 v vs ih =>
      rw [dedupFirst]
      refine List.nodup_cons.mpr ⟨fun hv => ?_, ih⟩
      exact (mem_removeVal.mp (mem_dedupFirst hv)).2 rfl

theorem mem_filterPresent {c : String} {allow cols : List String} :
    c ∈ filterPresent allow cols ↔ c ∈ allow ∧ c ∈ cols := by
  induction allow with
  | nil => simp [filterPresent]
  | cons a as ih =>
      simp only [filterPresent]
      split
      · next ha =>
          simp only [List.mem_cons, ih]
          constructor
          · rintro (rfl | ⟨h1, h2⟩)
            · exact ⟨Or.inl rfl, ha⟩
            · exact ⟨Or.inr h1, h2⟩
          · rintro ⟨rfl | h1, h2⟩
            · exact Or.inl rfl
            · exact Or.inr ⟨h1, h2⟩
      · next ha =>
          rw [ih]
          simp only [List.mem_cons]
          constructor
          · rintro ⟨h1, h2⟩
            exact ⟨Or.inr h1, h2⟩
          · rintro ⟨rfl | h1, h2⟩
            · exact absurd h2 ha
            · exact ⟨h1, h2⟩

theorem filterPresent_sublist (allow cols : List String) :
    List.Sublist (filterPresent allow cols) allow := by
  induction allow with
  | nil => simp [filterPresent]
  | cons a as ih =>
      simp only [filterPresent]
      split
      · exact List.Sublist.cons₂ a ih
      · exact List.Sublist.cons a ih

theorem filterPresent_congr {cols cols' : List String}
    (h : ∀ c, c ∈ cols ↔ c ∈ cols') (allow : List String) :
    filterPresent allow cols = filterPresent allow cols' := by
  induction allow with
  | nil => rfl
  | cons a as ih =>
      simp only [filterPresent]
      by_cases ha : a ∈ cols
      · rw [if_pos ha, if_pos ((h a).mp ha), ih]
      · rw [if_neg ha, if_neg (fun hc => ha ((h a).mpr hc)), ih]

theorem printTableInfo_absent (db : List Table) (idx : Table) (item : String)
    (hidx : findTable db "Index" = some idx)
    (hcols : "Item" ∈ idx.columns ∧ "Sheet" ∈ idx.columns)
    (habs : ∀ r ∈ idx.rows, ¬Row.get r "Item" = some item) :
    printTableInfo db item =
      ⟨[.header item, .notFound item], [.resolve item], none⟩ := by
  have hres : resolveSheet idx item = none := by
    rw [resolveSheet, rowsMatching_eq_nil habs]
    rfl
  simp only [printTableInfo, hidx]
  rw [if_pos hcols, hres]

theorem printTableInfo_success (db : List Table) (idx t : Table) (row : Row)
    (item sheet : String)
    (hidx : findTable db "Index" = some idx)
    (hcols : "Item" ∈ idx.columns ∧ "Sheet" ∈ idx.columns)
    (hrow : resolveSheet idx item = some row)
    (hsheet : Row.get row "Sheet" = some sheet)
    (ht : findTable db sheet = some t)
    (hit : "Item" ∈ t.columns) :
    printTableInfo db item =
      ⟨[.header item, .sheet (some sheet), .columns t.columns, .sampleHeader]
          ++ (sampleRows t item).map Event.sampleRow ++ [.distinctHeader]
          ++ (filterPresent interesting t.columns).map
              (fun c => Event.distinct c (distinctVals t item c)),
        [.resolve item, .pragma sheet, .sample sheet item]
          ++ (filterPresent interesting t.columns).map
              (fun c => Query.distinctQ sheet c item),
        none⟩ := by
  simp only [printTableInfo, hidx]
  rw [if_pos hcols, hrow]
  simp only [hsheet, sheetNameStr]
  rw [ht]
  simp only [if_pos hit]

/-- The column of a `distinct` output line, if the event is one. -/
def eventDistinctCol : Event → Option String
  | .distinct c _ => some c
  | _ => none

/-- The sequence of column names reported by the distinct-value analysis
lines of an output trace, in print order. -/
def distinctCols (l : List Event) : List String :=
  l.filterMap eventDistinctCol

theorem filterMap_const_none {α β : Type} (l : List α) :
    l.filterMap (fun _ => (none : Option β)) = [] := by
  induction l with
  | nil => rfl
  | cons x xs ih => simp [List.filterMap_cons, ih]

theorem distinctCols_append (l1 l2 : List Event) :
    distinctCols (l1 ++ l2) = distinctCols l1 ++ distinctCols l2 := by
  simp [distinctCols]

theorem distinctCols_map_sampleRow (l : List Row) :
    distinctCols (l.map Event.sampleRow) = [] := by
  induction l with
  | nil => rfl
  | cons x xs ih =>
      simp [distinctCols, List.filterMap_cons, eventDistinctCol, ih]

theorem distinctCols_map_distinct (g : String → List Value)
    (l : List String) :
    distinctCols (l.map fun c => Event.distinct c (g c)) = l := by
  induction l with
  | nil => rfl
  | cons x xs ih =>
      simpa [distinctCols, List.filterMap_cons, eventDistinctCol] using ih

/-- C1: for an index table that maps item names to sheet names (each row
matching the item carries the mapped sheet name), resolving a present item
yields a row whose Sheet field is exactly the mapped sheet name; resolving
an absent item finds no row, and the inspection of that item prints only
the header and the not-found message, issues no further query, and raises
no exception. -/
theorem c1_resolve_sheet (db : List Table) (idx : Table) (item : String)
    (hidx : findTable db "Index" = some idx)
    (hcols : "Item" ∈ idx.columns ∧ "Sheet" ∈ idx.columns) :
    (∀ sheet : Value,
      (∃ r ∈ idx.rows, Row.get r "Item" = some item) →
      (∀ r ∈ idx.rows, Row.get r "Item" = some item →
        Row.get r "Sheet" = some sheet) →
      ∃ r, resolveSheet idx item = some r ∧
        Row.get r "Sheet" = some sheet) ∧
    ((∀ r ∈ idx.rows, ¬Row.get r "Item" = some item) →
      resolveSheet idx item = none ∧
      printTableInfo db item =
        ⟨[.header item, .notFound item], [.resolve item], none⟩) := by
  constructor
  · rintro sheet ⟨r0, hr0, hr0i⟩ huniq
    cases hm : rowsMatching item idx.rows with
    | nil => exact absurd (mem_rowsMatching.mpr ⟨hr0, hr0i⟩) (by simp [hm])
    | cons r1 rs =>
        have h1 : r1 ∈ rowsMatching item idx.rows := by simp [hm]
        obtain ⟨h1m, h1i⟩ := mem_rowsMatching.mp h1
        refine ⟨r1, ?_, huniq r1 h1m h1i⟩
        rw [resolveSheet, hm]
        rfl
  · intro habs
    refine ⟨?_, printTableInfo_absent db idx item hidx hcols habs⟩
    rw [resolveSheet, rowsMatching_eq_nil habs]
    rfl

theorem c1_witness :
    ∃ r, resolveSheet idxEx "MCB" = some r ∧
      Row.get r "Sheet" = some "Circuit Breakers" :=
  (c1_resolve_sheet dbEx idxEx "MCB" (by decide) (by decide)).1
    "Circuit Breakers" (by decide) (by decide)

/-- C2: sample-row retrieval returns at most 5 rows, each returned row has
its Item field equal to the queried item, the result is an initial segment
of the matching rows, and when at most 5 rows match all of them are
returned. -/
theorem c2_sample_rows (t : Table) (item : String) :
    (sampleRows t item).length ≤ 5 ∧
    (∀ r ∈ sampleRows t item, Row.get r "Item" = some item) ∧
    (∃ l, rowsMatching item t.rows = sampleRows t item ++ l) ∧
    ((rowsMatching item t.rows).length ≤ 5 →
      sampleRows t item = rowsMatching item t.rows) := by
  refine ⟨?_, ?_, ?_, ?_⟩
  · rw [sampleRows, List.length_take]
    exact min_le_left _ _
  · intro r hr
    exact (mem_rowsMatching.mp (List.take_subset 5 _ hr)).2
  · exact ⟨(rowsMatching item t.rows).drop 5,
      (List.take_append_drop 5 _).symm⟩
  · intro hlen
    exact List.take_of_length_le hlen

theorem c2_witness :
    (sampleRows cbEx "MCB").length ≤ 5 ∧
    sampleRows cbEx "MCB" = rowsMatching "MCB" cbEx.rows :=
  ⟨(c2_sample_rows cbEx "MCB").1,
    (c2_sample_rows cbEx "MCB").2.2.2 (by decide)⟩

/-- C3: distinct-value retrieval returns at most 10 values, without
duplicates, and every returned value occurs (non-null) in some row of the
table whose Item field equals the queried item. -/
theorem c3_distinct_vals (t : Table) (item col : String) :
    (distinctVals t item col).length ≤ 10 ∧
    (distinctVals t item col).Nodup ∧
    ∀ v ∈ distinctVals t item col,
      ∃ r ∈ t.rows, Row.get r "Item" = some item ∧
        Row.get r col = some v := by
  refine ⟨?_, ?_, ?_⟩
  · rw [distinctVals, List.length_take]
    exact min_le_left _ _
  · exact (List.take_sublist 10 _).nodup (dedupFirst_nodup _)
  · intro v hv
    have h1 : v ∈ dedupFirst (colVals col (rowsMatching item t.rows)) :=
      List.take_subset 10 _ hv
    obtain ⟨r, hr, hcol⟩ := mem_colVals (mem_dedupFirst h1)
    obtain ⟨hrt, hri⟩ := mem_rowsMatching.mp hr
    exact ⟨r, hrt, hri, hcol⟩

theorem c3_witness :
    (distinctVals cbEx "MCB" "Pole").length ≤ 10 ∧
    (distinctVals cbEx "MCB" "Pole").Nodup :=
  ⟨(c3_distinct_vals cbEx "MCB" "Pole").1,
    (c3_distinct_vals cbEx "MCB" "Pole").2.1⟩

/-- C5: on every run that passes the existence check and reaches the
inspection phase, the connection is opened once and closed exactly once,
whether or not an exception is raised during the four inspections. -/
theorem c5_close_once (db : List Table) :
    (inspectMain true db).openCount = 1 ∧
    (inspectMain true db).closeCount = 1 := by
  unfold inspectMain
  cases h : (runItems db items).err <;> simp [h]

/-- C9: when the database file is missing, the run prints only the missing
file report, issues no query, never opens (hence never closes) a
connection, and stops with exit status 1. -/
theorem c9_missing_db_file (db : List Table) :
    (inspectMain false db).events = [Event.dbNotFound] ∧
    (inspectMain false db).queries = [] ∧
    (inspectMain false db).openCount = 0 ∧
    (inspectMain false db).closeCount = 0 ∧
    (inspectMain false db).exitCode = 1 :=
  ⟨rfl, rfl, rfl, rfl, rfl⟩

/-- C4: every distinct-value query issued by an inspection names one of the
six interesting columns, and that column is among the introspected columns
of the table the query targets; the missing-column error branch is
unreachable in the distinct-value report. -/
theorem c4_distinct_queries_guarded (db : List Table) (item : String) :
    ∀ s c i, Query.distinctQ s c i ∈ (printTableInfo db item).queries →
      c ∈ interesting ∧ ∃ t, findTable db s = some t ∧ c ∈ t.columns := by
  intro s c i hmem
  unfold printTableInfo at hmem
  split at hmem
  · simp at hmem
  · split at hmem
    · split at hmem
      · simp at hmem
      · split at hmem
        · simp at hmem
        · next t heq =>
            split at hmem
            · simp only [List.cons_append, List.nil_append, List.mem_cons,
                List.mem_map] at hmem
              rcases hmem with h | h | h | h
              · exact absurd h (by simp)
              · exact absurd h (by simp)
              · exact absurd h (by simp)
              · obtain ⟨c', hc', heqq⟩ := h
                cases heqq
                obtain ⟨hca, hcc⟩ := mem_filterPresent.mp hc'
                exact ⟨hca, t, heq, hcc⟩
            · simp at hmem
    · simp at hmem

theorem c4_witness :
    "Pole" ∈ interesting ∧
    ∃ t, findTable dbEx "Circuit Breakers" = some t ∧
      "Pole" ∈ t.columns :=
  c4_distinct_queries_guarded dbEx "MCB" "Circuit Breakers" "Pole" "MCB"
    (by decide)

/-- C6 counterexample: the claim that every run terminates with the same
exit status regardless of failure is false: on the example database, the
run with the database file missing exits with a different status than the
run with the file present. -/
theorem c6_counterexample :
    (inspectMain false dbEx).exitCode ≠ (inspectMain true dbEx).exitCode := by
  decide

/-- C6 (amended): every failure except the inspector's missing-database-file
check is surfaced only as a printed message, the run exiting with status 0
like a successful run; the missing-database-file check alone exits with
status 1. -/
theorem c6_exit_status_amended :
    (∀ db : List Table, (inspectMain true db).exitCode = 0) ∧
    (∀ db : List Table, (inspectMain false db).exitCode = 1) ∧
    (∀ w : Except String Workbook, (readExcelMain w).exitCode = 0) := by
  refine ⟨fun db => ?_, fun db => rfl, fun w => ?_⟩
  · unfold inspectMain
    cases h : (runItems db items).err <;> simp [h]
  · cases w <;> rfl

/-- C7: the four hardcoded item names are processed in one run; an item that
is absent from the index yields only the header and not-found lines and no
exception, so the run proceeds to the remaining items unchanged. -/
theorem c7_items_independent (db : List Table) (idx : Table) (x : String)
    (rest : List String)
    (hidx : findTable db "Index" = some idx)
    (hcols : "Item" ∈ idx.columns ∧ "Sheet" ∈ idx.columns)
    (habs : ∀ r ∈ idx.rows, ¬Row.get r "Item" = some x) :
    items = ["Main Switch Open", "MCCB", "MCB", "ACB"] ∧
    (runItems db (x :: rest)).events =
      [.header x, .notFound x] ++ (runItems db rest).events ∧
    (runItems db (x :: rest)).err = (runItems db rest).err := by
  have h := printTableInfo_absent db idx x hidx hcols habs
  refine ⟨rfl, ?_, ?_⟩ <;> simp [runItems, h]

theorem c7_witness :
    (runItems dbEx ["ACB", "MCB"]).events =
      [Event.header "ACB", Event.notFound "ACB"] ++
        (runItems dbEx ["MCB"]).events :=
  (c7_items_independent dbEx idxEx "ACB" ["MCB"] (by decide) (by decide)
    (by decide)).2.1

/-- C8: when opening the spreadsheet fails, the previewer prints exactly one
message, that message embeds the underlying failure text, no sheet-name
line and no preview is printed, and the exit status is the normal 0. -/
theorem c8_previewer_open_failure (s : String) :
    (∃ msg, (readExcelMain (Except.error s)).events = [XEvent.errorMsg msg] ∧
      ∃ pre, msg = pre ++ s) ∧
    (∀ names, XEvent.sheetNames names ∉
      (readExcelMain (Except.error s)).events) ∧
    (∀ n rs, XEvent.preview n rs ∉
      (readExcelMain (Except.error s)).events) ∧
    (readExcelMain (Except.error s)).exitCode = 0 := by
  refine ⟨⟨"Error reading Excel file: " ++ s, rfl,
    "Error reading Excel file: ", rfl⟩, ?_, ?_, rfl⟩
  · intro names hmem
    simp [readExcelMain] at hmem
  · intro n rs hmem
    simp [readExcelMain] at hmem

theorem c8_witness :
    (∃ msg,
      (readExcelMain (Except.error "boom")).events = [XEvent.errorMsg msg] ∧
      ∃ pre, msg = pre ++ "boom") ∧
    (readExcelMain (Except.error "boom")).exitCode = 0 :=
  ⟨(c8_previewer_open_failure "boom").1,
    (c8_previewer_open_failure "boom").2.2.2⟩

/-- C10: in a successful inspection the distinct-value report lists exactly
the interesting columns present in the resolved table, in the fixed
allow-list order (a sublist of the allow-list), and that listing depends
only on which columns the table has, not on their order in the schema. -/
theorem c10_report_order (db : List Table) (idx t : Table) (row : Row)
    (item sheet : String)
    (hidx : findTable db "Index" = some idx)
    (hcols : "Item" ∈ idx.columns ∧ "Sheet" ∈ idx.columns)
    (hrow : resolveSheet idx item = some row)
    (hsheet : Row.get row "Sheet" = some sheet)
    (ht : findTable db sheet = some t)
    (hit : "Item" ∈ t.columns) :
    distinctCols (printTableInfo db item).events =
      filterPresent interesting t.columns ∧
    List.Sublist (filterPresent interesting t.columns) interesting ∧
    ∀ cols', (∀ c, c ∈ t.columns ↔ c ∈ cols') →
      filterPresent interesting cols' = filterPresent interesting t.columns := by
  refine ⟨?_, filterPresent_sublist interesting t.columns,
    fun cols' h => (filterPresent_congr h interesting).symm⟩
  rw [printTableInfo_success db idx t row item sheet hidx hcols hrow hsheet
    ht hit]
  rw [distinctCols_append, distinctCols_append, distinctCols_append,
    distinctCols_map_sampleRow, distinctCols_map_distinct]
  simp [distinctCols, List.filterMap_cons, eventDistinctCol]

theorem c10_witness :
    distinctCols (printTableInfo dbEx "MCB").events =
      filterPresent interesting cbEx.columns :=
  (c10_report_order dbEx idxEx cbEx
    [("Item", some "MCB"), ("Sheet", some "Circuit Breakers")]
    "MCB" "Circuit Breakers" (by decide) (by decide) (by decide) (by decide)
    (by decide) (by decide)).1

end Sayanho
